import Mathlib

/-!
Shallow embedding of the Pokémon ring application (`src/main.js`) and proofs
about it: the random-record source (`fetchRandomPokemon`), the ring manager
(`createPokemonRing`), the click-resolution listener installed by
`initClickPicking`, the display formatting (`showPokemonInfo`, `capitalize`)
and the texture-load completion callback of `setCubeTexture`.
-/

namespace PokemonRing

/-- Constant `NUM_CUBES` (main.js:17): number of Pokémon cubes in the ring. -/
def NUM_CUBES : Nat := 10

/-- A `THREE.Mesh` cube. `createCube` allocates a fresh mesh object on every
call; object identity is modelled by an allocation serial number. -/
structure Mesh where
  meshId : Nat
deriving DecidableEq, Repr

/-- The fields of the PokeAPI JSON that main.js reads: `name`, `id`,
`sprites.front_default` (nullable), the ordered type names (`t.type.name` for
each entry of `types`), and the ordered `base_stat` values of `stats`. -/
structure PokemonData where
  name : String
  id : Nat
  front_default : Option String
  types : List String
  stats : List Nat
deriving DecidableEq, Repr

/-- One entry of the module-level `cubes` array: `{ mesh, pokemonData }`,
where `pokemonData` is `null` (`none`) for a slot whose fetch failed or whose
record had a falsy sprite URL. -/
structure Cube where
  mesh : Mesh
  pokemonData : Option PokemonData
deriving DecidableEq, Repr

/-- The module-level mutable state read and written by `createPokemonRing`:
the `cubes` array, the children of `ringGroup`, and the serial counter
modelling allocation of fresh mesh objects. -/
structure RingState where
  cubes : List Cube
  ringGroup : List Mesh
  nextMeshId : Nat
deriving DecidableEq, Repr

/-- The awaited outcome of one `fetchRandomPokemon()` call inside the ring
loop: either the parsed JSON record, or a thrown error (transport failure or
`!resp.ok`), which the loop body catches. -/
inductive FetchResult where
  | ok (data : PokemonData)
  | fail
deriving DecidableEq, Repr

/-- Intermediate state of the `for` loop in `createPokemonRing`, together with
the list of `setCubeTexture(mesh, sprite)` requests issued so far. -/
structure LoopState where
  cubes : List Cube
  ringGroup : List Mesh
  nextMeshId : Nat
  textureLoads : List (Mesh × String)
deriving DecidableEq, Repr

/-- One iteration of the `for` loop of `createPokemonRing` (main.js:230-255):
create a cube mesh, add it to `ringGroup`, await the fetch; on success with a
truthy `data.sprites.front_default` start a texture load and push
`{ mesh, pokemonData: data }`; on success with a falsy sprite (absent or
empty string) push `{ mesh, pokemonData: null }`; on a caught fetch error
also push `{ mesh, pokemonData: null }`. -/
def ringStep (fetches : Nat → FetchResult) (s : LoopState) (i : Nat) : LoopState :=
  let mesh : Mesh := ⟨s.nextMeshId⟩
  let rg := s.ringGroup ++ [mesh]
  match fetches i with
  | .ok data =>
    match data.front_default with
    | some sprite =>
      if sprite = "" then
        ⟨s.cubes ++ [⟨mesh, none⟩], rg, s.nextMeshId + 1, s.textureLoads⟩
      else
        ⟨s.cubes ++ [⟨mesh, some data⟩], rg, s.nextMeshId + 1,
          s.textureLoads ++ [(mesh, sprite)]⟩
    | none => ⟨s.cubes ++ [⟨mesh, none⟩], rg, s.nextMeshId + 1, s.textureLoads⟩
  | .fail => ⟨s.cubes ++ [⟨mesh, none⟩], rg, s.nextMeshId + 1, s.textureLoads⟩

/-- Result of one completed `createPokemonRing()` call: the new module state
plus the exposed `window.lastPokemonIDs` and the texture-load requests the
call issued. -/
structure RefreshOut where
  cubes : List Cube
  ringGroup : List Mesh
  nextMeshId : Nat
  lastPokemonIDs : List (Option Nat)
  textureLoads : List (Mesh × String)
deriving DecidableEq, Repr

/-- Function `createPokemonRing` (main.js:225-260): removes every existing cube's mesh
from the ring group (`cubes.forEach(({mesh}) => ringGroup.remove(mesh))`),
empties `cubes`, runs the per-slot loop `NUM_CUBES` times, then exposes
`window.lastPokemonIDs = cubes.map(c => c.pokemonData ? c.pokemonData.id : null)`.
`fetches i` abstracts the outcome of the `await fetchRandomPokemon()` on
iteration `i`. Every throw inside the loop body is caught by its
`try`/`catch`, so the function itself is total. -/
def createPokemonRing (st : RingState) (fetches : Nat → FetchResult) : RefreshOut :=
  let rg0 := st.cubes.foldl (fun g c => g.erase c.mesh) st.ringGroup
  let s := (List.range NUM_CUBES).foldl (ringStep fetches) ⟨[], rg0, st.nextMeshId, []⟩
  ⟨s.cubes, s.ringGroup, s.nextMeshId,
    s.cubes.map (fun c => c.pokemonData.map (fun d => d.id)), s.textureLoads⟩

/-- The module state left behind by a completed refresh. -/
def RefreshOut.toState (o : RefreshOut) : RingState :=
  ⟨o.cubes, o.ringGroup, o.nextMeshId⟩

/-- The `pokemonData` value the loop body stores for a given fetch outcome. -/
def slotBinding : FetchResult → Option PokemonData
  | .ok data =>
    match data.front_default with
    | some sprite => if sprite = "" then none else some data
    | none => none
  | .fail => none

/-- The texture-load requests (none or one) the loop body issues for the slot
whose mesh got serial number `k`. -/
def slotLoad (k : Nat) : FetchResult → List (Mesh × String)
  | .ok data =>
    match data.front_default with
    | some sprite => if sprite = "" then [] else [(⟨k⟩, sprite)]
    | none => []
  | .fail => []

/-- Outcome of one click event as handled by the listener that
`initClickPicking` installs: either the info overlay is set to the rendered
record, or to the `No data available.` fallback, or (when the ray hits no
ring cube) nothing is written at all. -/
inductive ClickEffect where
  | setInfo (data : PokemonData)
  | setNoData
  | noWrite
deriving DecidableEq, Repr

/-- The click listener of `initClickPicking` (main.js:275-291), given the
raycaster's `intersects` result (the hit meshes among `ringGroup.children`,
nearest first): on a nonempty hit list it takes the nearest mesh, looks it up
in `cubes` with `find`, and either shows that cube's record
(`found && found.pokemonData`) or writes the fallback markup; on an empty hit
list it does nothing. -/
def clickListener (cubes : List Cube) (intersects : List Mesh) : ClickEffect :=
  match intersects with
  | [] => .noWrite
  | clicked :: _ =>
    match cubes.find? (fun c => c.mesh == clicked) with
    | some c =>
      match c.pokemonData with
      | some data => .setInfo data
      | none => .setNoData
    | none => .setNoData

/-- Function `capitalize` (main.js:325-327): `str.charAt(0).toUpperCase() + str.slice(1)`.
`charAt(0)` of the empty string is the empty string (modelled by `take 1`),
and `slice(1)` is `drop 1`. -/
def capitalize (s : String) : String :=
  String.mk ((s.data.take 1).map Char.toUpper ++ s.data.drop 1)

/-- Function `showPokemonInfo` (main.js:303-318): renders the overlay markup from the
record's id, capitalized name, comma-joined capitalized type names, and the
`base_stat` of `stats[0]`, `stats[1]`, `stats[2]` by position. Accessing a
missing stat entry throws a `TypeError` in JS; that is modelled by `none`. -/
def showPokemonInfo (data : PokemonData) : Option String :=
  match data.stats.get? 0, data.stats.get? 1, data.stats.get? 2 with
  | some hp, some attack, some defense =>
    some ("\n    <div class=\"highlight\">\n      <strong>#" ++ toString data.id
      ++ " " ++ capitalize data.name ++ "</strong><br />\n      <em>Types:</em> "
      ++ String.intercalate ", " (data.types.map capitalize)
      ++ "<br />\n      <em>HP:</em> " ++ toString hp ++ " | <em>Attack:</em> "
      ++ toString attack ++ " | <em>Defense:</em> " ++ toString defense
      ++ "\n    </div>\n  ")
  | _, _, _ => none

/-- Effect of a `ClickEffect` on `pokemonInfoDiv.innerHTML`. `setInfo` writes
the rendered record; if the render throws (record with fewer than three
stats) the assignment is never reached and the content stays unchanged.
`setNoData` writes the fallback markup; `noWrite` leaves the content as is. -/
def applyClick (e : ClickEffect) (div : String) : String :=
  match e with
  | .setInfo data =>
    match showPokemonInfo data with
    | some html => html
    | none => div
  | .setNoData => "<div>No data available.</div>"
  | .noWrite => div

/-- Completion callback of the texture load started by `setCubeTexture`
(main.js:212-218): `mesh.material.map = texture; mesh.material.needsUpdate =
true`. It is applied to the captured mesh unconditionally; there is no check
that the mesh still belongs to the current ring. `materials` maps each mesh
object to its current texture map (`none` = no map set), and the result is
the updated mapping. -/
def applyLoadedTexture (mesh : Mesh) (texture : Nat)
    (materials : Mesh → Option Nat) : Mesh → Option Nat :=
  fun m => if m = mesh then some texture else materials m

/-- The id drawn by `fetchRandomPokemon` (main.js:185):
`Math.floor(Math.random() * 1010) + 1`, with the `Math.random()` result
modelled by a rational `q` (the spec of `Math.random()` is a value in
`[0, 1)`). -/
def randomId (q : ℚ) : ℤ := ⌊q * 1010⌋ + 1

/-- One HTTP response of the upstream API: the `ok` status flag and the
parsed JSON body. -/
structure ApiResponse where
  ok : Bool
  body : PokemonData
deriving Repr

/-- Function `fetchRandomPokemon` (main.js:184-189): draws `randomId q`, performs the
single `fetch` for that id (the first component lists the ids requested, in
order), throws `Failed to fetch Pokémon data` when `!resp.ok`, and otherwise
returns the parsed JSON. No retry and no substitute id: the request list is
`[randomId q]` in every case. -/
def fetchRandomPokemon (q : ℚ) (resp : ℤ → ApiResponse) :
    List ℤ × Except String PokemonData :=
  let id := randomId q
  if (resp id).ok then ([id], Except.ok (resp id).body)
  else ([id], Except.error "Failed to fetch Pokémon data")

/-- Steady-state invariant of the module state: the children of `ringGroup`
are exactly the meshes of the cubes in order, and every mesh in the scene was
allocated before the current serial counter. It holds at startup (everything
empty) and is preserved by every completed refresh (`WF_refresh`). -/
def WF (st : RingState) : Prop :=
  st.ringGroup = st.cubes.map (fun c => c.mesh) ∧
  ∀ m ∈ st.ringGroup, m.meshId < st.nextMeshId

/-- A concrete record with a nonempty sprite URL, used to instantiate the
fetch oracle in witnesses. -/
def pikachu : PokemonData :=
  ⟨"pikachu", 25, some "pikachu.png", ["electric"], [35, 55, 40]⟩

/-- A concrete record whose `sprites.front_default` is the empty string — a
falsy sprite URL — as in the spec scenario for id 6. -/
def charizardNoSprite : PokemonData :=
  ⟨"charizard", 6, some "", ["fire", "flying"], [78, 84, 78]⟩

/-- Fetch oracle in which every per-slot fetch succeeds with `pikachu`. -/
def fetchesAllOk : Nat → FetchResult := fun _ => .ok pikachu

/-- Fetch oracle in which every per-slot fetch succeeds with
`charizardNoSprite`. -/
def fetchesEmptySprite : Nat → FetchResult := fun _ => .ok charizardNoSprite

/-- Fetch oracle in which every per-slot fetch throws. -/
def fetchesAllFail : Nat → FetchResult := fun _ => .fail

/-- The module state at startup: no cubes, an empty ring group, and no mesh
allocated yet. -/
def initialState : RingState := ⟨[], [], 0⟩

/-- Modelled from the spec (section 4.3 Display formatting): the fixed
textual template `#<id> <Capitalized name>`, a comma-joined list of
capitalized type names, and the three stat values labelled HP / Attack /
Defense. Used only as the comparand of the refinement theorem about
`showPokemonInfo`. -/
def specDisplayTemplate (id0 : Nat) (name0 : String) (types0 : List String)
    (hp attack defense : Nat) : String :=
  "\n    <div class=\"highlight\">\n      <strong>#" ++ toString id0
    ++ " " ++ capitalize name0 ++ "</strong><br />\n      <em>Types:</em> "
    ++ String.intercalate ", " (types0.map capitalize)
    ++ "<br />\n      <em>HP:</em> " ++ toString hp ++ " | <em>Attack:</em> "
    ++ toString attack ++ " | <em>Defense:</em> " ++ toString defense
    ++ "\n    </div>\n  "

theorem ringStep_apply (fetches : Nat → FetchResult) (cs : List Cube)
    (rg : List Mesh) (k : Nat) (tl : List (Mesh × String)) (i : Nat) :
    ringStep fetches ⟨cs, rg, k, tl⟩ i =
      ⟨cs ++ [⟨⟨k⟩, slotBinding (fetches i)⟩], rg ++ [⟨k⟩], k + 1,
       tl ++ slotLoad k (fetches i)⟩ := by
  cases hf : fetches i with
  | ok data =>
    cases hd : data.front_default with
    | some sprite =>
      by_cases hs : sprite = "" <;>
        simp [ringStep, slotBinding, slotLoad, hf, hd, hs]
    | none => simp [ringStep, slotBinding, slotLoad, hf, hd]
  | fail => simp [ringStep, slotBinding, slotLoad, hf]

theorem ringLoop_eq (fetches : Nat → FetchResult) (rg0 : List Mesh) (n0 : Nat) :
    ∀ n, (List.range n).foldl (ringStep fetches) ⟨[], rg0, n0, []⟩ =
      ⟨(List.range n).map (fun i => ⟨⟨n0 + i⟩, slotBinding (fetches i)⟩),
       rg0 ++ (List.range n).map (fun i => (⟨n0 + i⟩ : Mesh)),
       n0 + n,
       (List.range n).flatMap (fun i => slotLoad (n0 + i) (fetches i))⟩ := by
  intro n
  induction n with
  | zero => simp
  | succ n ih =>
    rw [List.range_succ, List.foldl_append, ih, List.foldl_cons, List.foldl_nil,
      ringStep_apply]
    simp only [LoopState.mk.injEq, List.map_append, List.map_cons, List.map_nil,
      List.flatMap_append, List.flatMap_cons, List.flatMap_nil, List.append_nil,
      List.append_assoc, Nat.add_succ]

theorem erase_self_fold (cs : List Cube) :
    cs.foldl (fun g c => g.erase c.mesh) (cs.map (fun c => c.mesh)) = [] := by
  induction cs with
  | nil => rfl
  | cons c cs ih =>
    rw [List.map_cons, List.foldl_cons, List.erase_cons_head]
    exact ih

theorem createPokemonRing_eq (st : RingState) (fetches : Nat → FetchResult) :
    createPokemonRing st fetches =
      ⟨(List.range NUM_CUBES).map
          (fun i => ⟨⟨st.nextMeshId + i⟩, slotBinding (fetches i)⟩),
       (st.cubes.foldl (fun g c => g.erase c.mesh) st.ringGroup) ++
          (List.range NUM_CUBES).map (fun i => (⟨st.nextMeshId + i⟩ : Mesh)),
       st.nextMeshId + NUM_CUBES,
       (List.range NUM_CUBES).map
          (fun i => (slotBinding (fetches i)).map (fun d => d.id)),
       (List.range NUM_CUBES).flatMap
          (fun i => slotLoad (st.nextMeshId + i) (fetches i))⟩ := by
  simp only [createPokemonRing]
  rw [ringLoop_eq]
  simp [List.map_map, Function.comp]

theorem createPokemonRing_ringGroup (st : RingState) (fetches : Nat → FetchResult)
    (h : st.ringGroup = st.cubes.map (fun c => c.mesh)) :
    (createPokemonRing st fetches).ringGroup =
      (List.range NUM_CUBES).map (fun i => (⟨st.nextMeshId + i⟩ : Mesh)) := by
  rw [createPokemonRing_eq, h, erase_self_fold]
  rfl

theorem WF_refresh (st : RingState) (fetches : Nat → FetchResult) (h : WF st) :
    WF (createPokemonRing st fetches).toState := by
  obtain ⟨h1, _⟩ := h
  constructor
  · show (createPokemonRing st fetches).ringGroup =
      (createPokemonRing st fetches).cubes.map (fun c => c.mesh)
    rw [createPokemonRing_ringGroup st fetches h1, createPokemonRing_eq]
    simp [List.map_map, Function.comp]
  · intro m hm
    show m.meshId < (createPokemonRing st fetches).nextMeshId
    replace hm : m ∈ (createPokemonRing st fetches).ringGroup := hm
    rw [createPokemonRing_ringGroup st fetches h1] at hm
    rw [createPokemonRing_eq]
    simp only [List.mem_map, List.mem_range] at hm
    obtain ⟨i, hi, rfl⟩ := hm
    simpa using hi

theorem slotLoad_mesh (k : Nat) (r : FetchResult) (p : Mesh × String)
    (hp : p ∈ slotLoad k r) : p.1 = ⟨k⟩ := by
  cases r with
  | ok data =>
    cases hd : data.front_default with
    | some sprite =>
      by_cases hs : sprite = ""
      · simp [slotLoad, hd, hs] at hp
      · simp [slotLoad, hd, hs] at hp
        rw [hp]
    | none => simp [slotLoad, hd] at hp
  | fail => simp [slotLoad] at hp

theorem refreshed_meshes (st : RingState) (fetches : Nat → FetchResult) :
    (createPokemonRing st fetches).cubes.map (fun c => c.mesh) =
      (List.range NUM_CUBES).map (fun i => (⟨st.nextMeshId + i⟩ : Mesh)) := by
  rw [createPokemonRing_eq]
  simp [List.map_map, Function.comp]

theorem refreshed_meshes_nodup (st : RingState) (fetches : Nat → FetchResult) :
    ((createPokemonRing st fetches).cubes.map (fun c => c.mesh)).Nodup := by
  rw [refreshed_meshes]
  refine List.Nodup.map ?_ (List.nodup_range NUM_CUBES)
  intro a b h
  simp only [Mesh.mk.injEq] at h
  omega

theorem find_mesh_of_nodup (cs : List Cube) (c : Cube) (hc : c ∈ cs)
    (hnd : (cs.map (fun x => x.mesh)).Nodup) :
    cs.find? (fun x => x.mesh == c.mesh) = some c := by
  induction cs with
  | nil => cases hc
  | cons a cs ih =>
    rw [List.map_cons, List.nodup_cons] at hnd
    rcases List.mem_cons.mp hc with rfl | hc
    · exact List.find?_cons_of_pos _ (by simp)
    · have hne : (a.mesh == c.mesh) = false := by
        simp only [beq_eq_false_iff_ne, ne_eq]
        intro h
        exact hnd.1 (h ▸ List.mem_map_of_mem (fun x => x.mesh) hc)
      rw [List.find?_cons_of_neg _ (by simp [hne])]
      exact ih hc hnd.2

theorem clickListener_of_mem (cs : List Cube) (c : Cube) (hc : c ∈ cs)
    (hnd : (cs.map (fun x => x.mesh)).Nodup) :
    clickListener cs [c.mesh] =
      match c.pokemonData with
      | some data => .setInfo data
      | none => .setNoData := by
  simp only [clickListener, find_mesh_of_nodup cs c hc hnd]

/-- C1: for every completed `refresh()`, the exposed identifier list
`window.lastPokemonIDs` has exactly `NUM_CUBES = 10` entries, one per slot in
slot-index order (it is the slot list mapped to bindings), and every entry is
either the bound record's id — positive whenever the upstream records carry
positive ids, as the data model requires — or the unbound marker `null`. -/
theorem refresh_exposes_n_ids (st : RingState) (fetches : Nat → FetchResult)
    (hpos : ∀ i data, fetches i = .ok data → 0 < data.id) :
    (createPokemonRing st fetches).lastPokemonIDs.length = NUM_CUBES ∧
    (createPokemonRing st fetches).lastPokemonIDs =
      (createPokemonRing st fetches).cubes.map
        (fun c => c.pokemonData.map (fun d => d.id)) ∧
    ∀ x ∈ (createPokemonRing st fetches).lastPokemonIDs,
      x = none ∨ ∃ k, x = some k ∧ 0 < k := by
  refine ⟨?_, ?_, ?_⟩
  · rw [createPokemonRing_eq]
    simp
  · rw [createPokemonRing_eq]
    simp [List.map_map, Function.comp]
  · intro x hx
    rw [createPokemonRing_eq] at hx
    simp only [List.mem_map, List.mem_range] at hx
    obtain ⟨i, hi, rfl⟩ := hx
    cases hf : fetches i with
    | ok data =>
      cases hd : data.front_default with
      | some sprite =>
        by_cases hs : sprite = ""
        · left
          simp [slotBinding, hf, hd, hs]
        · right
          exact ⟨data.id, by simp [slotBinding, hf, hd, hs], hpos i data hf⟩
      | none =>
        left
        simp [slotBinding, hf, hd]
    | fail =>
      left
      simp [slotBinding, hf]

/-- C1 witness: the theorem applied to the startup state with every fetch
succeeding with the `pikachu` record. -/
theorem refresh_exposes_n_ids_witness :
    (∀ i data, fetchesAllOk i = .ok data → 0 < data.id) ∧
    ((createPokemonRing initialState fetchesAllOk).lastPokemonIDs.length = NUM_CUBES ∧
     (createPokemonRing initialState fetchesAllOk).lastPokemonIDs =
       (createPokemonRing initialState fetchesAllOk).cubes.map
         (fun c => c.pokemonData.map (fun d => d.id)) ∧
     ∀ x ∈ (createPokemonRing initialState fetchesAllOk).lastPokemonIDs,
       x = none ∨ ∃ k, x = some k ∧ 0 < k) := by
  have hpos : ∀ i data, fetchesAllOk i = .ok data → 0 < data.id := by
    intro i data h
    simp only [fetchesAllOk, FetchResult.ok.injEq] at h
    subst h
    decide
  exact ⟨hpos, refresh_exposes_n_ids initialState fetchesAllOk hpos⟩

/-- C3: a slot whose fetch fails (transport error or `!resp.ok`, both thrown
and caught by the loop body) is left with `pokemonData = null`, all
`NUM_CUBES` slots are still produced, and the refresh completes normally —
`createPokemonRing` is a total function of the fetch outcomes, so no
exception escapes it. -/
theorem refresh_contains_failure (st : RingState) (fetches : Nat → FetchResult)
    (i : Nat) (hi : i < NUM_CUBES) (hf : fetches i = .fail) :
    (createPokemonRing st fetches).cubes[i]? =
      some ⟨⟨st.nextMeshId + i⟩, none⟩ ∧
    (createPokemonRing st fetches).cubes.length = NUM_CUBES ∧
    (createPokemonRing st fetches).lastPokemonIDs[i]? = some none := by
  rw [createPokemonRing_eq]
  refine ⟨?_, by simp, ?_⟩
  · simp only [List.getElem?_map, List.getElem?_range hi, Option.map_some]
    simp [slotBinding, hf]
  · simp only [List.getElem?_map, List.getElem?_range hi, Option.map_some]
    simp [slotBinding, hf]

/-- C3 witness: the theorem applied at slot 3 of a refresh in which every
fetch fails. -/
theorem refresh_contains_failure_witness :
    (3 < NUM_CUBES ∧ fetchesAllFail 3 = .fail) ∧
    ((createPokemonRing initialState fetchesAllFail).cubes[3]? =
       some ⟨⟨initialState.nextMeshId + 3⟩, none⟩ ∧
     (createPokemonRing initialState fetchesAllFail).cubes.length = NUM_CUBES ∧
     (createPokemonRing initialState fetchesAllFail).lastPokemonIDs[3]? = some none) :=
  ⟨⟨by decide, rfl⟩, refresh_contains_failure initialState fetchesAllFail 3 (by decide) rfl⟩

/-- C9: `capitalize` is total over all strings — the result always exists and
has the same length as the input — and `capitalize ""` returns `""` rather
than failing on the absent first character (`charAt(0)` of `""` is `""`). -/
theorem capitalize_total_and_empty :
    capitalize "" = "" ∧ ∀ s : String, (capitalize s).length = s.length := by
  constructor
  · rfl
  · intro s
    cases s with
    | mk data =>
      cases data with
      | nil => rfl
      | cons c cs => rfl

/-- C10: a click whose ray hit-test intersects no cube takes the untaken
branch of `if (intersects.length > 0)`: the listener produces no write at
all and the overlay content stays exactly as it was, whatever the cube list
and prior content. -/
theorem click_miss_writes_nothing (cubes : List Cube) (div : String) :
    clickListener cubes [] = ClickEffect.noWrite ∧
    applyClick (clickListener cubes []) div = div :=
  ⟨rfl, rfl⟩

/-- C2 counterexample: slot 0's fetch succeeds with `charizardNoSprite`,
whose sprite URL is the empty string, yet after the refresh the slot does
not bind the record — its `pokemonData` is `null` — and click resolution on
that slot's handle yields the `No data available.` fallback instead of the
record. -/
theorem empty_sprite_slot_not_bound :
    fetchesEmptySprite 0 = FetchResult.ok charizardNoSprite ∧
    (createPokemonRing initialState fetchesEmptySprite).cubes[0]? =
      some ⟨⟨0⟩, none⟩ ∧
    (some charizardNoSprite : Option PokemonData) ≠ none ∧
    clickListener (createPokemonRing initialState fetchesEmptySprite).cubes
      [⟨0⟩] = ClickEffect.setNoData := by
  refine ⟨rfl, by decide, by decide, by decide⟩

/-- C2 amended: for every slot whose fetch succeeds but whose record has a
falsy sprite URL (absent or the empty string), `refresh()` leaves that
slot's binding as `null` — the record is discarded, so resolving the slot's
handle yields the `No data available.` fallback, not the record — the
texture load for that slot is skipped, and no error is raised: the refresh
still completes with all `NUM_CUBES` slots. -/
theorem refresh_empty_sprite_leaves_unbound (st : RingState)
    (fetches : Nat → FetchResult) (i : Nat) (data : PokemonData)
    (hi : i < NUM_CUBES) (hf : fetches i = .ok data)
    (hs : data.front_default = none ∨ data.front_default = some "") :
    (createPokemonRing st fetches).cubes[i]? =
      some ⟨⟨st.nextMeshId + i⟩, none⟩ ∧
    clickListener (createPokemonRing st fetches).cubes
      [⟨st.nextMeshId + i⟩] = ClickEffect.setNoData ∧
    (∀ p ∈ (createPokemonRing st fetches).textureLoads,
      p.1 ≠ (⟨st.nextMeshId + i⟩ : Mesh)) ∧
    (createPokemonRing st fetches).cubes.length = NUM_CUBES := by
  have hbind : slotBinding (fetches i) = none := by
    rcases hs with hs | hs <;> simp [slotBinding, hf, hs]
  have hcube : (createPokemonRing st fetches).cubes[i]? =
      some ⟨⟨st.nextMeshId + i⟩, none⟩ := by
    rw [createPokemonRing_eq]
    simp only [List.getElem?_map, List.getElem?_range hi]
    simp [hbind]
  have hmem : (⟨⟨st.nextMeshId + i⟩, none⟩ : Cube) ∈
      (createPokemonRing st fetches).cubes :=
    List.getElem?_mem hcube
  refine ⟨hcube, ?_, ?_, by rw [createPokemonRing_eq]; simp⟩
  · have := clickListener_of_mem (createPokemonRing st fetches).cubes
      ⟨⟨st.nextMeshId + i⟩, none⟩ hmem (refreshed_meshes_nodup st fetches)
    simpa using this
  · intro p hp
    rw [createPokemonRing_eq] at hp
    simp only [List.mem_flatMap, List.mem_range] at hp
    obtain ⟨j, hj, hpj⟩ := hp
    have hpm := slotLoad_mesh _ _ _ hpj
    rw [hpm]
    intro hcontra
    simp only [Mesh.mk.injEq] at hcontra
    have hij : j = i := by omega
    subst hij
    rw [hf] at hpj
    rcases hs with hs | hs <;> simp [slotLoad, hs] at hpj

/-- C2 amended witness: the theorem applied at slot 0 of a refresh in which
every fetch succeeds with the empty-sprite record. -/
theorem refresh_empty_sprite_leaves_unbound_witness :
    (0 < NUM_CUBES ∧ fetchesEmptySprite 0 = .ok charizardNoSprite ∧
     (charizardNoSprite.front_default = none ∨
      charizardNoSprite.front_default = some "")) ∧
    ((createPokemonRing initialState fetchesEmptySprite).cubes[0]? =
       some ⟨⟨initialState.nextMeshId + 0⟩, none⟩ ∧
     clickListener (createPokemonRing initialState fetchesEmptySprite).cubes
       [⟨initialState.nextMeshId + 0⟩] = ClickEffect.setNoData ∧
     (∀ p ∈ (createPokemonRing initialState fetchesEmptySprite).textureLoads,
       p.1 ≠ (⟨initialState.nextMeshId + 0⟩ : Mesh)) ∧
     (createPokemonRing initialState fetchesEmptySprite).cubes.length =
       NUM_CUBES) :=
  ⟨⟨by decide, rfl, Or.inr rfl⟩,
   refresh_empty_sprite_leaves_unbound initialState fetchesEmptySprite 0
     charizardNoSprite (by decide) rfl (Or.inr rfl)⟩

/-- C7: every refresh first detaches all prior handles from the scene group
and then creates exactly `NUM_CUBES` fresh handles: afterwards the group
holds exactly the current slots' meshes in slot order (all distinct), no
handle from before the refresh remains, and every handle in the group is
newly allocated during this refresh (its serial is at least the pre-refresh
counter), so no handle of any earlier refresh is leaked. -/
theorem refresh_scene_handles (st : RingState) (fetches : Nat → FetchResult)
    (hwf : WF st) :
    (createPokemonRing st fetches).ringGroup.length = NUM_CUBES ∧
    (createPokemonRing st fetches).ringGroup =
      (createPokemonRing st fetches).cubes.map (fun c => c.mesh) ∧
    (createPokemonRing st fetches).ringGroup.Nodup ∧
    (∀ m ∈ st.ringGroup, m ∉ (createPokemonRing st fetches).ringGroup) ∧
    (∀ m ∈ (createPokemonRing st fetches).ringGroup,
      st.nextMeshId ≤ m.meshId) := by
  have hrg := createPokemonRing_ringGroup st fetches hwf.1
  have hmem : ∀ m ∈ (createPokemonRing st fetches).ringGroup,
      ∃ j, j < NUM_CUBES ∧ m = (⟨st.nextMeshId + j⟩ : Mesh) := by
    intro m hm
    rw [hrg] at hm
    simp only [List.mem_map, List.mem_range] at hm
    obtain ⟨j, hj, rfl⟩ := hm
    exact ⟨j, hj, rfl⟩
  refine ⟨by rw [hrg]; simp, ?_, ?_, ?_, ?_⟩
  · rw [hrg, refreshed_meshes]
  · rw [hrg]
    refine List.Nodup.map ?_ (List.nodup_range NUM_CUBES)
    intro a b h
    simp only [Mesh.mk.injEq] at h
    omega
  · intro m hm hcontra
    obtain ⟨j, hj, rfl⟩ := hmem m hcontra
    have h3 : st.nextMeshId + j < st.nextMeshId := hwf.2 _ hm
    omega
  · intro m hm
    obtain ⟨j, hj, rfl⟩ := hmem m hm
    simp

/-- C7 witness: the theorem applied to the startup state (which satisfies the
scene invariant trivially) with every fetch succeeding. -/
theorem refresh_scene_handles_witness :
    WF initialState ∧
    ((createPokemonRing initialState fetchesAllOk).ringGroup.length = NUM_CUBES ∧
     (createPokemonRing initialState fetchesAllOk).ringGroup =
       (createPokemonRing initialState fetchesAllOk).cubes.map (fun c => c.mesh) ∧
     (createPokemonRing initialState fetchesAllOk).ringGroup.Nodup ∧
     (∀ m ∈ initialState.ringGroup,
       m ∉ (createPokemonRing initialState fetchesAllOk).ringGroup) ∧
     (∀ m ∈ (createPokemonRing initialState fetchesAllOk).ringGroup,
       initialState.nextMeshId ≤ m.meshId)) := by
  have hwf : WF initialState := ⟨rfl, by simp [initialState]⟩
  exact ⟨hwf, refresh_scene_handles initialState fetchesAllOk hwf⟩

/-- C4: after a completed refresh, click resolution distinguishes the three
cases. A handle of a current slot with a bound record shows exactly that
record; a handle of a current unbound slot produces the distinguished
`No data available.` write; a handle belonging to no current slot — in
particular one destroyed by the prior refresh — is absent from the scene
group, so the ray hit-test (which only ranges over `ringGroup.children`) can
never return it, and a hit list that is empty produces no write at all,
distinguishable from the no-data write. Finally, any shown record always
comes from a current slot: a stale record is never returned. -/
theorem click_resolution_cases (st : RingState) (fetches : Nat → FetchResult)
    (intersects : List Mesh) (hwf : WF st)
    (hint : ∀ m ∈ intersects, m ∈ (createPokemonRing st fetches).ringGroup) :
    (∀ c ∈ (createPokemonRing st fetches).cubes, ∀ data,
      c.pokemonData = some data →
      clickListener (createPokemonRing st fetches).cubes [c.mesh] =
        ClickEffect.setInfo data) ∧
    (∀ c ∈ (createPokemonRing st fetches).cubes,
      c.pokemonData = none →
      clickListener (createPokemonRing st fetches).cubes [c.mesh] =
        ClickEffect.setNoData) ∧
    (∀ m ∈ st.ringGroup, m ∉ intersects) ∧
    (intersects = [] →
      clickListener (createPokemonRing st fetches).cubes intersects =
        ClickEffect.noWrite) ∧
    (∀ data,
      clickListener (createPokemonRing st fetches).cubes intersects =
        ClickEffect.setInfo data →
      ∃ c ∈ (createPokemonRing st fetches).cubes, c.pokemonData = some data) := by
  refine ⟨?_, ?_, ?_, ?_, ?_⟩
  · intro c hc data hd
    rw [clickListener_of_mem _ c hc (refreshed_meshes_nodup st fetches), hd]
  · intro c hc hd
    rw [clickListener_of_mem _ c hc (refreshed_meshes_nodup st fetches), hd]
  · intro m hm hcontra
    have hmem := hint m hcontra
    rw [createPokemonRing_ringGroup st fetches hwf.1] at hmem
    simp only [List.mem_map, List.mem_range] at hmem
    obtain ⟨j, hj, rfl⟩ := hmem
    have h3 : st.nextMeshId + j < st.nextMeshId := hwf.2 _ hm
    omega
  · intro h
    rw [h]
    rfl
  · intro data h
    cases intersects with
    | nil => simp [clickListener] at h
    | cons clicked rest =>
      simp only [clickListener] at h
      cases hfind : (createPokemonRing st fetches).cubes.find?
          (fun c => c.mesh == clicked) with
      | none => rw [hfind] at h; simp at h
      | some c =>
        rw [hfind] at h
        have h2 : (match c.pokemonData with
            | some d => ClickEffect.setInfo d
            | none => ClickEffect.setNoData) = ClickEffect.setInfo data := h
        cases hd : c.pokemonData with
        | none => rw [hd] at h2; simp at h2
        | some d =>
          rw [hd] at h2
          simp only [ClickEffect.setInfo.injEq] at h2
          subst h2
          exact ⟨c, List.mem_of_find?_eq_some hfind, hd⟩

/-- C4 witness: the theorem applied after a refresh of the startup state with
every fetch succeeding, clicking the handle of slot 0. -/
theorem click_resolution_cases_witness :
    (WF initialState ∧
     (∀ m ∈ ([⟨0⟩] : List Mesh),
       m ∈ (createPokemonRing initialState fetchesAllOk).ringGroup)) ∧
    ((∀ c ∈ (createPokemonRing initialState fetchesAllOk).cubes, ∀ data,
       c.pokemonData = some data →
       clickListener (createPokemonRing initialState fetchesAllOk).cubes
         [c.mesh] = ClickEffect.setInfo data) ∧
     (∀ c ∈ (createPokemonRing initialState fetchesAllOk).cubes,
       c.pokemonData = none →
       clickListener (createPokemonRing initialState fetchesAllOk).cubes
         [c.mesh] = ClickEffect.setNoData) ∧
     (∀ m ∈ initialState.ringGroup, m ∉ ([⟨0⟩] : List Mesh)) ∧
     (([⟨0⟩] : List Mesh) = [] →
       clickListener (createPokemonRing initialState fetchesAllOk).cubes
         [⟨0⟩] = ClickEffect.noWrite) ∧
     (∀ data,
       clickListener (createPokemonRing initialState fetchesAllOk).cubes
         [⟨0⟩] = ClickEffect.setInfo data →
       ∃ c ∈ (createPokemonRing initialState fetchesAllOk).cubes,
         c.pokemonData = some data)) := by
  have hwf : WF initialState := ⟨rfl, by simp [initialState]⟩
  have hint : ∀ m ∈ ([⟨0⟩] : List Mesh),
      m ∈ (createPokemonRing initialState fetchesAllOk).ringGroup := by decide
  exact ⟨⟨hwf, hint⟩,
    click_resolution_cases initialState fetchesAllOk [⟨0⟩] hwf hint⟩

/-- C8 counterexample: the texture load for slot 0 issued by the first
refresh captures mesh 0; a second refresh tears that slot down (mesh 0 is no
longer in the scene group), yet the completion callback still applies the
loaded texture to mesh 0 — the load result is applied even though the
slot/handle is no longer current, contradicting the claimed guard. -/
theorem stale_texture_write_occurs :
    ((⟨0⟩ : Mesh), "pikachu.png") ∈
      (createPokemonRing initialState fetchesAllOk).textureLoads ∧
    (⟨0⟩ : Mesh) ∉ (createPokemonRing
      (createPokemonRing initialState fetchesAllOk).toState
      fetchesAllOk).ringGroup ∧
    applyLoadedTexture ⟨0⟩ 7 (fun _ => none) ⟨0⟩ = some 7 := by
  refine ⟨by decide, by decide, rfl⟩

/-- C8 amended: the texture-load completion callback has no currency guard —
it writes the loaded texture into its captured mesh unconditionally, even
when that mesh belongs to a slot torn down by a subsequent refresh — but the
refresh detached that mesh from the scene group, so the stale write changes
the material of no handle that is current after the refresh: every current
handle is a different mesh and its material is untouched. -/
theorem stale_texture_write_isolated (st : RingState)
    (f g : Nat → FetchResult) (m : Mesh) (url : String) (texture : Nat)
    (materials : Mesh → Option Nat) (hwf : WF st)
    (hload : (m, url) ∈ (createPokemonRing st f).textureLoads) :
    applyLoadedTexture m texture materials m = some texture ∧
    ∀ m2 ∈ (createPokemonRing (createPokemonRing st f).toState g).ringGroup,
      m2 ≠ m ∧ applyLoadedTexture m texture materials m2 = materials m2 := by
  have hmid : m.meshId < st.nextMeshId + NUM_CUBES := by
    rw [createPokemonRing_eq] at hload
    simp only [List.mem_flatMap, List.mem_range] at hload
    obtain ⟨j, hj, hpj⟩ := hload
    have := slotLoad_mesh _ _ _ hpj
    simp only at this
    rw [this]
    simpa using hj
  have hwf1 := WF_refresh st f hwf
  have hne : ∀ m2 ∈ (createPokemonRing
      (createPokemonRing st f).toState g).ringGroup, m2 ≠ m := by
    intro m2 hm2 hcontra
    rw [createPokemonRing_ringGroup _ g hwf1.1] at hm2
    simp only [List.mem_map, List.mem_range] at hm2
    obtain ⟨j, hj, rfl⟩ := hm2
    have hnext : (createPokemonRing st f).toState.nextMeshId =
        st.nextMeshId + NUM_CUBES := by
      rw [createPokemonRing_eq]
      rfl
    rw [hnext] at hcontra
    rw [← hcontra] at hmid
    simp at hmid
  refine ⟨by simp [applyLoadedTexture], ?_⟩
  intro m2 hm2
  refine ⟨hne m2 hm2, ?_⟩
  simp [applyLoadedTexture, hne m2 hm2]

/-- C8 amended witness: the theorem applied to the texture load of slot 0
from a first refresh of the startup state, completing after a second
refresh. -/
theorem stale_texture_write_isolated_witness :
    (WF initialState ∧
     ((⟨0⟩ : Mesh), "pikachu.png") ∈
       (createPokemonRing initialState fetchesAllOk).textureLoads) ∧
    (applyLoadedTexture ⟨0⟩ 7 (fun _ => none) ⟨0⟩ = some 7 ∧
     ∀ m2 ∈ (createPokemonRing
         (createPokemonRing initialState fetchesAllOk).toState
         fetchesAllOk).ringGroup,
       m2 ≠ (⟨0⟩ : Mesh) ∧
       applyLoadedTexture ⟨0⟩ 7 (fun _ => none) m2 = (fun _ => none) m2) := by
  have hwf : WF initialState := ⟨rfl, by simp [initialState]⟩
  have hload : ((⟨0⟩ : Mesh), "pikachu.png") ∈
      (createPokemonRing initialState fetchesAllOk).textureLoads := by decide
  exact ⟨⟨hwf, hload⟩,
    stale_texture_write_isolated initialState fetchesAllOk fetchesAllOk
      ⟨0⟩ "pikachu.png" 7 (fun _ => none) hwf hload⟩

/-- C5: `fetchRandomPokemon` draws `Math.floor(Math.random() * 1010) + 1`, an
integer in `[1, 1010]` that is uniform in the draw: for every integer `k`,
the id equals `k` exactly when the random value lies in the half-open
interval `[(k-1)/1010, k/1010)`, so each of the 1010 ids has a preimage of
equal length `1/1010`. It issues exactly one request, for precisely that id
(the request list is `[randomId q]` whatever the response), and throws when
the response status is a failure — no retry and no substituted id. -/
theorem fetchRandom_single_uniform (q : ℚ) (resp : ℤ → ApiResponse)
    (h0 : 0 ≤ q) (h1 : q < 1) :
    (1 ≤ randomId q ∧ randomId q ≤ 1010) ∧
    (fetchRandomPokemon q resp).1 = [randomId q] ∧
    (∀ k : ℤ, randomId q = k ↔
      ((k : ℚ) - 1) / 1010 ≤ q ∧ q < (k : ℚ) / 1010) ∧
    ((resp (randomId q)).ok = false →
      (fetchRandomPokemon q resp).2 =
        Except.error "Failed to fetch Pokémon data") := by
  refine ⟨⟨?_, ?_⟩, ?_, ?_, ?_⟩
  · have hnn : (0 : ℤ) ≤ ⌊q * 1010⌋ :=
      Int.floor_nonneg.mpr (mul_nonneg h0 (by norm_num))
    unfold randomId
    omega
  · have hlt : ⌊q * 1010⌋ < 1010 := by
      rw [Int.floor_lt]
      push_cast
      nlinarith
    unfold randomId
    omega
  · cases hok : (resp (randomId q)).ok <;>
      simp [fetchRandomPokemon, hok]
  · intro k
    unfold randomId
    have hstep : (⌊q * 1010⌋ + 1 = k) ↔ (⌊q * 1010⌋ = k - 1) := by omega
    rw [hstep, Int.floor_eq_iff]
    push_cast
    rw [div_le_iff₀ (by norm_num : (0:ℚ) < 1010), lt_div_iff₀ (by norm_num : (0:ℚ) < 1010)]
    constructor
    · rintro ⟨ha, hb⟩
      constructor <;> linarith
    · rintro ⟨ha, hb⟩
      constructor <;> linarith
  · intro hok
    simp [fetchRandomPokemon, hok]

/-- C5 witness: the theorem applied to the draw `q = 1/2` (id 506) against a
responder that always fails. -/
theorem fetchRandom_single_uniform_witness :
    ((0 : ℚ) ≤ 1 / 2 ∧ (1 / 2 : ℚ) < 1) ∧
    ((1 ≤ randomId (1 / 2) ∧ randomId (1 / 2) ≤ 1010) ∧
     (fetchRandomPokemon (1 / 2) (fun _ => ⟨false, pikachu⟩)).1 =
       [randomId (1 / 2)] ∧
     (∀ k : ℤ, randomId (1 / 2) = k ↔
       ((k : ℚ) - 1) / 1010 ≤ 1 / 2 ∧ (1 / 2 : ℚ) < (k : ℚ) / 1010) ∧
     (((fun _ => ⟨false, pikachu⟩ : ℤ → ApiResponse) (randomId (1 / 2))).ok = false →
       (fetchRandomPokemon (1 / 2) (fun _ => ⟨false, pikachu⟩)).2 =
         Except.error "Failed to fetch Pokémon data")) :=
  ⟨⟨by norm_num, by norm_num⟩,
   fetchRandom_single_uniform (1 / 2) (fun _ => ⟨false, pikachu⟩)
     (by norm_num) (by norm_num)⟩

/-- C6: for every record with at least three stat entries, the rendered
overlay is exactly the fixed template of the spec — `#<id> <Capitalized
name>`, the comma-joined capitalized type names in their given order, and
the three stat values labelled HP / Attack / Defense taken from the first
three stat entries by position, with no reordering by stat name — and
`capitalize` uppercases exactly the first character of its argument, leaving
the remainder unchanged. -/
theorem showInfo_fixed_template (data : PokemonData)
    (hp attack defense : Nat)
    (h0 : data.stats.get? 0 = some hp)
    (h1 : data.stats.get? 1 = some attack)
    (h2 : data.stats.get? 2 = some defense) :
    showPokemonInfo data =
      some (specDisplayTemplate data.id data.name data.types hp attack defense) ∧
    ∀ s : String, capitalize s =
      match s.data with
      | [] => ""
      | c :: cs => String.mk (Char.toUpper c :: cs) := by
  constructor
  · rw [showPokemonInfo, h0, h1, h2]
    rfl
  · intro s
    cases s with
    | mk data =>
      cases data with
      | nil => rfl
      | cons c cs => rfl

/-- C6 witness: the theorem applied to the concrete `pikachu` record. -/
theorem showInfo_fixed_template_witness :
    (pikachu.stats.get? 0 = some 35 ∧ pikachu.stats.get? 1 = some 55 ∧
     pikachu.stats.get? 2 = some 40) ∧
    (showPokemonInfo pikachu =
       some (specDisplayTemplate pikachu.id pikachu.name pikachu.types 35 55 40) ∧
     ∀ s : String, capitalize s =
       match s.data with
       | [] => ""
       | c :: cs => String.mk (Char.toUpper c :: cs)) :=
  ⟨⟨rfl, rfl, rfl⟩, showInfo_fixed_template pikachu 35 55 40 rfl rfl rfl⟩

end PokemonRing
